import Mathlib

/-!
Verification development for the cognitive extensions header of the rc shell
(`src/cognitive.h`) and its design specification.

The repository ships only the interface: enum, struct and macro definitions are
in the header, while the bodies of the codec, registry, attention-ledger and
membrane-store operations are declared (`extern`) but not present in the
sources.  The structures, enumerations and macro stubs below are embedded
directly from the header; every operation whose body is missing is modelled
from the specification text and marked `Modelled from the spec:` in its doc
comment.

The file is organised as definitions first, then theorems.
-/

namespace Cognitive

/-- Message kinds, embedded from the C enum `MessageType`
(`src/cognitive.h`, lines 59-69): the nine values
`MSG_DISCOVERY .. MSG_MEMBRANE_SYNC`, numbered 0..8 as C numbers them. -/
inductive MessageType : Type
  | msgDiscovery
  | msgHeartbeat
  | msgAttentionSync
  | msgPatternShare
  | msgCognitiveState
  | msgCommandRequest
  | msgMemorySync
  | msgInferenceQuery
  | msgMembraneSync
deriving DecidableEq, Repr

/-- The numeric value of a message kind, as the C enum assigns it. -/
def MessageType.toNat : MessageType → Nat
  | .msgDiscovery => 0
  | .msgHeartbeat => 1
  | .msgAttentionSync => 2
  | .msgPatternShare => 3
  | .msgCognitiveState => 4
  | .msgCommandRequest => 5
  | .msgMemorySync => 6
  | .msgInferenceQuery => 7
  | .msgMembraneSync => 8

/-- Partial inverse of `MessageType.toNat`: `none` on any value outside the
nine-member enumeration. -/
def MessageType.fromNat : Nat → Option MessageType
  | 0 => some .msgDiscovery
  | 1 => some .msgHeartbeat
  | 2 => some .msgAttentionSync
  | 3 => some .msgPatternShare
  | 4 => some .msgCognitiveState
  | 5 => some .msgCommandRequest
  | 6 => some .msgMemorySync
  | 7 => some .msgInferenceQuery
  | 8 => some .msgMembraneSync
  | _ => none

/-- The message envelope, embedded from the C struct `CognitiveMessage`
(`src/cognitive.h`, lines 71-78): kind, source id, destination id, timestamp,
payload length and payload bytes.  The C integer fields are `uint32_t` and the
payload is a flexible `char` array; here they are naturals with explicit
bounds in `CognitiveMessage.Valid`. -/
structure CognitiveMessage : Type where
  type : MessageType
  source_id : Nat
  dest_id : Nat
  timestamp : Nat
  data_length : Nat
  data : List Nat
deriving DecidableEq, Repr

/-- Validity of a message: the `uint32_t` fields fit in 32 bits, the declared
payload length equals the payload byte count, and the payload entries are
bytes. -/
def CognitiveMessage.Valid (m : CognitiveMessage) : Prop :=
  m.source_id < 4294967296 ∧ m.dest_id < 4294967296 ∧ m.timestamp < 4294967296 ∧
    m.data_length < 4294967296 ∧ m.data_length = m.data.length ∧ ∀ b ∈ m.data, b < 256

/-- Big-endian bytes of a 32-bit value, most significant first. -/
def u32be (n : Nat) : List Nat :=
  [n / 16777216 % 256, n / 65536 % 256, n / 256 % 256, n % 256]

/-- The 32-bit value read back from four big-endian bytes. -/
def beVal (a b c d : Nat) : Nat :=
  a * 16777216 + b * 65536 + c * 256 + d

/-- Modelled from the spec: the wire encoding of `encode` (§4.1, §6), whose C
body is not in the sources.  Fixed-order big-endian layout
`kind:u8, source_id:u32, dest_id:u32, timestamp:u32, length:u32,
payload:bytes[length]`. -/
def encode (m : CognitiveMessage) : List Nat :=
  m.type.toNat ::
    (u32be m.source_id ++ u32be m.dest_id ++ u32be m.timestamp ++
      u32be m.data_length ++ m.data)

/-- The error taxonomy of `decode` (§7): decode failures are
`MalformedMessage`. -/
inductive DecodeError : Type
  | malformedMessage
deriving DecidableEq, Repr

/-- Modelled from the spec: `decode` (§4.1), whose C body is not in the
sources.  Fails with `MalformedMessage` when the buffer is shorter than the
17-byte fixed header, when the kind byte is outside the enumeration, or when
the declared payload length differs from the remaining byte count; otherwise
reconstructs the message. -/
def decode (buf : List Nat) : Except DecodeError CognitiveMessage :=
  if buf.length < 17 then .error .malformedMessage
  else
    match MessageType.fromNat (buf.getD 0 0) with
    | none => .error .malformedMessage
    | some t =>
      if beVal (buf.getD 13 0) (buf.getD 14 0) (buf.getD 15 0) (buf.getD 16 0) =
          buf.length - 17 then
        .ok
          { type := t
            source_id := beVal (buf.getD 1 0) (buf.getD 2 0) (buf.getD 3 0) (buf.getD 4 0)
            dest_id := beVal (buf.getD 5 0) (buf.getD 6 0) (buf.getD 7 0) (buf.getD 8 0)
            timestamp := beVal (buf.getD 9 0) (buf.getD 10 0) (buf.getD 11 0) (buf.getD 12 0)
            data_length := beVal (buf.getD 13 0) (buf.getD 14 0) (buf.getD 15 0) (buf.getD 16 0)
            data := buf.drop 17 }
      else .error .malformedMessage

/-- Attention-economy record per pattern, embedded from the C struct
`ECANValues` (`src/cognitive.h`, lines 44-49): short-term, long-term and
very-long-term importance scores and a stimulation level.  The C fields are
`float`; they are modelled as rationals. -/
structure ECANValues : Type where
  short_term_importance : ℚ
  long_term_importance : ℚ
  very_long_term_importance : ℚ
  stimulation_level : ℚ
deriving DecidableEq, Repr

/-- Modelled from the spec: the attention ledger state (§4.3) as a total map
from numeric pattern ids to their ECAN record. -/
def AttentionLedger : Type := Nat → ECANValues

/-- Field-wise maximum of two ECAN records. -/
def ECANValues.join (x y : ECANValues) : ECANValues where
  short_term_importance := max x.short_term_importance y.short_term_importance
  long_term_importance := max x.long_term_importance y.long_term_importance
  very_long_term_importance := max x.very_long_term_importance y.very_long_term_importance
  stimulation_level := max x.stimulation_level y.stimulation_level

/-- Modelled from the spec: `merge_remote` (§4.3), whose C body is not in the
sources.  Combines a remote attention state into the local one by taking the
maximum of each importance field per pattern. -/
def merge_remote (loc rem : AttentionLedger) : AttentionLedger :=
  fun p => (loc p).join (rem p)

/-- Tensor membrane record, embedded from the C struct `TensorMembrane`
(`src/cognitive.h`, lines 89-96): membrane id, a fixed `uint32_t
prime_factors[16]` shape array, tensor payload pointer and size, version
counter and checksum.  The 16-slot array is a function out of `Fin 16`; the
`float` payload cells are rationals. -/
structure TensorMembrane : Type where
  membrane_id : Nat
  prime_factors : Fin 16 → Nat
  tensor_data : List ℚ
  data_size : Nat
  version : Nat
  checksum : Nat

/-- The shape descriptor of a membrane: the list of its prime-factor slots. -/
def TensorMembrane.shapeSlots (m : TensorMembrane) : List Nat :=
  List.ofFn m.prime_factors

/-- Feature flag, embedded from `src/cognitive.h` lines 18-20: defaults to 0
when not set at build time. -/
def ENABLE_IPC_EXTENSIONS : Nat := 0

/-- Feature flag, embedded from `src/cognitive.h` lines 22-24: defaults to 0
when not set at build time. -/
def ENABLE_SCHEME_INTEGRATION : Nat := 0

/-- Feature flag, embedded from `src/cognitive.h` lines 26-28: defaults to 0
when not set at build time. -/
def ENABLE_TENSOR_OPERATIONS : Nat := 0

/-- Embedded from the disabled-branch macro `rc_ipc_init() 0`
(`src/cognitive.h`, line 108). -/
def rc_ipc_init : Int := 0

/-- Embedded from the disabled-branch macro `rc_ipc_listen(path) -1`
(`src/cognitive.h`, line 109). -/
def rc_ipc_listen (path : List Nat) : Int := -1

/-- Embedded from the disabled-branch macro `rc_ipc_connect(path) -1`
(`src/cognitive.h`, line 110). -/
def rc_ipc_connect (path : List Nat) : Int := -1

/-- Embedded from the disabled-branch macro `rc_ipc_send(fd, data, len) -1`
(`src/cognitive.h`, line 111). -/
def rc_ipc_send (fd : Int) (data : List Nat) (len : Nat) : Int := -1

/-- Embedded from the disabled-branch macro `rc_ipc_recv(fd, buffer, len) -1`
(`src/cognitive.h`, line 112). -/
def rc_ipc_recv (fd : Int) (buffer : List Nat) (len : Nat) : Int := -1

/-- Embedded from the disabled-branch macro `scheme_eval(expr) 0`
(`src/cognitive.h`, line 124). -/
def scheme_eval (expr : List Nat) : Int := 0

/-- Embedded from the disabled-branch macro `scheme_call(func, args) NULL`
(`src/cognitive.h`, line 125); `NULL` is `none`. -/
def scheme_call (func : List Nat) (args : List (List Nat)) : Option (List Nat) := none

/-- Embedded from the disabled-branch macro `tensor_create(dims, ndims) NULL`
(`src/cognitive.h`, line 137); the opaque `void *` result is an optional
handle and `NULL` is `none`. -/
def tensor_create (dims : List Int) (ndims : Nat) : Option Unit := none

/-- Embedded from the disabled-branch macro `tensor_compute(tensor, op) -1`
(`src/cognitive.h`, line 139). -/
def tensor_compute (tensor : Option Unit) (op : List Nat) : Int := -1

/-- Agent identity record, embedded from the C struct `AgentNode`
(`src/cognitive.h`, lines 80-87): agent id, hostname (a byte array in C),
port, capability bitmask, load factor and last-seen timestamp. -/
structure AgentNode : Type where
  agent_id : Nat
  hostname : List Nat
  port : Nat
  capabilities : Nat
  load_factor : Nat
  last_seen : Nat
deriving DecidableEq, Repr

/-- The deterministic registry ordering (§4.2): ascending load factor, ties
broken by ascending agent id. -/
def agentRel (a b : AgentNode) : Prop :=
  a.load_factor < b.load_factor ∨
    (a.load_factor = b.load_factor ∧ a.agent_id ≤ b.agent_id)

instance : DecidableRel agentRel := fun a b => by
  unfold agentRel; exact inferInstance

instance : IsTotal AgentNode agentRel :=
  ⟨fun a b => by unfold agentRel; omega⟩

instance : IsTrans AgentNode agentRel :=
  ⟨fun a b c h1 h2 => by unfold agentRel at h1 h2 ⊢; omega⟩

/-- Modelled from the spec: `find_by_capability` (§4.2), declared in the
header as `agent_find_by_capability` (line 239) with no body in the sources.
The registry is the list of known agents; the result is every agent whose
capability mask intersects the requested bitmask, sorted ascending by load
factor then agent id. -/
def agent_find_by_capability (mask : Nat) (reg : List AgentNode) : List AgentNode :=
  List.insertionSort agentRel
    (reg.filter fun a => decide (a.capabilities &&& mask ≠ 0))

/-- Modelled from the spec: `select_agent` (§4.6), whose body is not in the
sources (the header only declares the builtin wrapper `b_load_balance`,
line 223).  Picks the first agent of the deterministic capability ordering;
`none` is the `NoAgentAvailable` report. -/
def select_agent (mask : Nat) (reg : List AgentNode) : Option AgentNode :=
  (agent_find_by_capability mask reg).head?

/-- Modelled from the spec: the integrity checksum over a membrane payload
(§3).  The spec fixes only that it is recomputed deterministically from the
payload; concretely, a 32-bit polynomial fold of the cells' canonical
magnitudes. -/
def chk (p : List Int) : Nat :=
  p.foldl (fun acc x => (acc * 31 + x.natAbs) % 4294967296) 0

/-- A remote membrane candidate as carried by a membrane-sync payload (§6):
membrane id, version, derived-from version, payload cells and the sending
agent's id.  The checksum it carries is `chk` of its payload. -/
structure Candidate : Type where
  membrane_id : Nat
  version : Nat
  derived_from : Nat
  payload : List Int
  source_agent : Nat
deriving DecidableEq, Repr

/-- Modelled from the spec: the membrane-store record for one membrane id
(§4.4).  Besides the `TensorMembrane` fields observable on the wire
(version, payload, checksum), the store keeps the history the spec's
conflict policy consults: the base payload of the last synchronized state
and the version of the last local mutation (0 when none), plus the owning
agent's id for the merge tie-break. -/
structure MembraneState : Type where
  membrane_id : Nat
  agent_id : Nat
  version : Nat
  payload : List Int
  checksum : Nat
  base : List Int
  last_local_mut : Nat
deriving DecidableEq, Repr

/-- The observable state of a membrane: its `(version, checksum, payload)`
triple. -/
def MembraneState.obs (s : MembraneState) : Nat × Nat × List Int :=
  (s.version, s.checksum, s.payload)

/-- Rejection reasons of `apply_remote` (§4.4, §7). -/
inductive RejectReason : Type
  | stale
  | notFound
deriving DecidableEq, Repr

/-- Result of `apply_remote` (§4.4): `Accepted | Rejected(reason) | Merged`. -/
inductive ApplyResult : Type
  | accepted
  | rejected (reason : RejectReason)
  | merged
deriving DecidableEq, Repr

/-- Modelled from the spec: the per-cell merge policy of §4.4 — prefer the
value with the larger magnitude of change from the common base, ties broken
in favour of the higher source agent id (`localWins` says the local agent id
is higher). -/
def mergeCell (b l r : Int) (localWins : Bool) : Int :=
  if (r - b).natAbs < (l - b).natAbs then l
  else if (l - b).natAbs < (r - b).natAbs then r
  else if localWins then l else r

/-- Cell-wise merge of local and remote payloads over the common base; on a
shape mismatch the local remainder is kept. -/
def mergePayload : List Int → List Int → List Int → Bool → List Int
  | b :: bs, l :: ls, r :: rs, w => mergeCell b l r w :: mergePayload bs ls rs w
  | _, ls, _, _ => ls

/-- Modelled from the spec: `mutate_local` (§4.4), whose C body is not in the
sources.  Increments the version counter and recomputes the checksum
atomically with the payload write, recording the mutation version. -/
def mutate_local (s : MembraneState) (f : List Int → List Int) : MembraneState :=
  { s with
      version := s.version + 1
      payload := f s.payload
      checksum := chk (f s.payload)
      last_local_mut := s.version + 1 }

/-- Modelled from the spec: `apply_remote` (§4.4), the three-way conflict
resolution declared in the header as `membrane_compare_versions` and
`membrane_merge_changes` (lines 242-243) with no bodies in the sources.
`candidate.version <= local.version` with differing checksums is
`Rejected(Stale)`; with matching checksums the candidate was already applied
and nothing changes.  A higher candidate version with no concurrent local
mutation since its derived-from version is `Accepted` wholesale; otherwise
the deterministic cell-wise merge produces a version greater than both. -/
def apply_remote (s : MembraneState) (c : Candidate) : ApplyResult × MembraneState :=
  if c.membrane_id ≠ s.membrane_id then (.rejected .notFound, s)
  else if c.version ≤ s.version then
    if chk c.payload ≠ s.checksum then (.rejected .stale, s)
    else (.accepted, s)
  else if s.last_local_mut ≤ c.derived_from then
    (.accepted,
      { s with
          version := c.version
          payload := c.payload
          checksum := chk c.payload
          base := c.payload })
  else
    let p := mergePayload s.base s.payload c.payload (decide (c.source_agent < s.agent_id))
    (.merged,
      { s with
          version := max s.version c.version + 1
          payload := p
          checksum := chk p
          base := p })

/-- Folding a list of remote candidates into a membrane store state. -/
def applyList (s : MembraneState) (cs : List Candidate) : MembraneState :=
  cs.foldl (fun t c => (apply_remote t c).2) s

/-- The action of one candidate on the observable `(version, checksum,
payload)` triple of a store that has no unsynchronized local mutations. -/
def stepObs (mid : Nat) : Nat × Nat × List Int → Candidate → Nat × Nat × List Int
  | (v, ck, p), c =>
    if c.membrane_id = mid ∧ v < c.version then (c.version, chk c.payload, c.payload)
    else (v, ck, p)

/-- Folding candidates over an observable triple. -/
def foldObs (mid : Nat) (o : Nat × Nat × List Int) (cs : List Candidate) :
    Nat × Nat × List Int :=
  cs.foldl (stepObs mid) o

/-- Two candidates are compatible when equal versions for the same membrane
imply equal payloads. -/
def Compat (c1 c2 : Candidate) : Prop :=
  c1.membrane_id = c2.membrane_id → c1.version = c2.version → c1.payload = c2.payload

/-- An operation of the membrane store: a local mutation or the application
of a remote candidate. -/
inductive MembraneOp : Type
  | mutateOp (f : List Int → List Int)
  | applyOp (c : Candidate)

/-- One store operation. -/
def stepOp (s : MembraneState) : MembraneOp → MembraneState
  | .mutateOp f => mutate_local s f
  | .applyOp c => (apply_remote s c).2

/-- A sequence of store operations. -/
def runOps (s : MembraneState) : List MembraneOp → MembraneState
  | [] => s
  | o :: os => runOps (stepOp s o) os

theorem MessageType.fromNat_toNat (t : MessageType) : MessageType.fromNat t.toNat = some t := by
  cases t <;> rfl

theorem MessageType.fromNat_eq_none {n : Nat} : MessageType.fromNat n = none ↔ 9 ≤ n := by
  match n with
  | 0 | 1 | 2 | 3 | 4 | 5 | 6 | 7 | 8 => simp [MessageType.fromNat]
  | n + 9 => simp [MessageType.fromNat]

theorem beVal_u32be {n : Nat} (h : n < 4294967296) :
    beVal (n / 16777216 % 256) (n / 65536 % 256) (n / 256 % 256) (n % 256) = n := by
  unfold beVal; omega

/-- C2: codec round-trip.  For every valid message — kind in the known
enumeration, declared payload length equal to the payload byte count —
decoding the big-endian fixed-order encoding returns the message
unchanged. -/
theorem decode_encode (m : CognitiveMessage) (h : m.Valid) : decode (encode m) = .ok m := by
  obtain ⟨h1, h2, h3, h4, h5, -⟩ := h
  simp only [encode, u32be, List.cons_append, List.nil_append]
  unfold decode
  simp only [List.length_cons, List.getD_cons_zero, List.getD_cons_succ,
    MessageType.fromNat_toNat]
  rw [beVal_u32be h1, beVal_u32be h2, beVal_u32be h3, beVal_u32be h4]
  split
  · omega
  · split
    · simp
    · omega

/-- Concrete instance of the codec round-trip: a heartbeat message with a
two-byte payload is valid and decodes from its encoding unchanged. -/
theorem decode_encode_witness :
    (CognitiveMessage.mk .msgHeartbeat 1 0 42 2 [7, 8]).Valid ∧
      decode (encode (CognitiveMessage.mk .msgHeartbeat 1 0 42 2 [7, 8])) =
        .ok (CognitiveMessage.mk .msgHeartbeat 1 0 42 2 [7, 8]) :=
  ⟨by unfold CognitiveMessage.Valid; decide,
    decode_encode _ (by unfold CognitiveMessage.Valid; decide)⟩

/-- C3: `decode` fails with `MalformedMessage` exactly when the buffer is
shorter than the 17-byte fixed header, or the declared payload length differs
from the number of bytes remaining after the header, or the kind byte is
outside the nine-value enumeration; in particular unknown kinds are rejected,
not silently ignored. -/
theorem decode_malformed_iff (buf : List Nat) :
    decode buf = .error .malformedMessage ↔
      buf.length < 17 ∨
        beVal (buf.getD 13 0) (buf.getD 14 0) (buf.getD 15 0) (buf.getD 16 0) ≠
          buf.length - 17 ∨
        9 ≤ buf.getD 0 0 := by
  unfold decode
  split
  · next hlt => simp [hlt]
  · next hlt =>
    split
    · next heq =>
      exact iff_of_true rfl (Or.inr (Or.inr (MessageType.fromNat_eq_none.mp heq)))
    · next t heq =>
      have hk : ¬ 9 ≤ buf.getD 0 0 := by
        intro h9
        rw [MessageType.fromNat_eq_none.mpr h9] at heq
        exact Option.noConfusion heq
      split
      · next hc =>
        refine iff_of_false (fun h => Except.noConfusion h) ?_
        push_neg
        exact ⟨by omega, hc, by omega⟩
      · next hc =>
        exact iff_of_true rfl (Or.inr (Or.inl hc))

/-- C6: `merge_remote` takes, for each pattern, the per-field maximum of the
local and remote importance values, and the merge is commutative and
idempotent: merging A then B equals merging B then A, and merging the same
remote state twice equals merging it once. -/
theorem merge_remote_max_comm_idem (S A B : AttentionLedger) :
    (∀ p, (merge_remote S A p).short_term_importance =
        max (S p).short_term_importance (A p).short_term_importance ∧
      (merge_remote S A p).long_term_importance =
        max (S p).long_term_importance (A p).long_term_importance ∧
      (merge_remote S A p).very_long_term_importance =
        max (S p).very_long_term_importance (A p).very_long_term_importance ∧
      (merge_remote S A p).stimulation_level =
        max (S p).stimulation_level (A p).stimulation_level) ∧
    merge_remote (merge_remote S A) B = merge_remote (merge_remote S B) A ∧
    merge_remote (merge_remote S A) A = merge_remote S A := by
  refine ⟨fun p => ⟨rfl, rfl, rfl, rfl⟩, ?_, ?_⟩
  · funext p
    simp only [merge_remote, ECANValues.join, ECANValues.mk.injEq]
    exact ⟨Max.right_comm _ _ _, Max.right_comm _ _ _, Max.right_comm _ _ _,
      Max.right_comm _ _ _⟩
  · funext p
    simp only [merge_remote, ECANValues.join, ECANValues.mk.injEq]
    refine ⟨?_, ?_, ?_, ?_⟩ <;> rw [max_assoc, max_self]

/-- C10: every `TensorMembrane` stores its shape descriptor in a fixed array
of exactly 16 prime-factor slots, so the canonical shape encoding of any
membrane — however it was allocated — has room for at most 16 prime
factors. -/
theorem tensorMembrane_shape_sixteen (m : TensorMembrane) :
    m.shapeSlots.length = 16 := by
  simp [TensorMembrane.shapeSlots]

/-- C9: with the feature flags at their default 0, the public calls are
constant stubs independent of their arguments: `rc_ipc_init` and
`scheme_eval` report success (0) while every IPC operation and
`tensor_compute` return -1 and `tensor_create` and `scheme_call` return
`NULL` — initialization claims success although every subsequent operation of
the feature fails. -/
theorem disabled_feature_stubs :
    ENABLE_IPC_EXTENSIONS = 0 ∧ ENABLE_SCHEME_INTEGRATION = 0 ∧
      ENABLE_TENSOR_OPERATIONS = 0 ∧
      rc_ipc_init = 0 ∧
      (∀ expr, scheme_eval expr = 0) ∧
      (∀ path, rc_ipc_listen path = -1) ∧
      (∀ path, rc_ipc_connect path = -1) ∧
      (∀ fd data len, rc_ipc_send fd data len = -1) ∧
      (∀ fd buffer len, rc_ipc_recv fd buffer len = -1) ∧
      (∀ tensor op, tensor_compute tensor op = -1) ∧
      (∀ dims ndims, tensor_create dims ndims = none) ∧
      (∀ func args, scheme_call func args = none) :=
  ⟨rfl, rfl, rfl, rfl, fun _ => rfl, fun _ => rfl, fun _ => rfl,
    fun _ _ _ => rfl, fun _ _ _ => rfl, fun _ _ => rfl, fun _ _ => rfl,
    fun _ _ => rfl⟩

/-- C7: `find_by_capability` returns exactly the agents whose capability mask
intersects the requested bitmask — a permutation of the registry filter, with
membership precisely the matching agents — ordered ascending by load factor
and, among equal load factors, ascending by agent id. -/
theorem agent_find_by_capability_spec (mask : Nat) (reg : List AgentNode) :
    (agent_find_by_capability mask reg).Perm
        (reg.filter fun a => decide (a.capabilities &&& mask ≠ 0)) ∧
      (∀ a, a ∈ agent_find_by_capability mask reg ↔
        a ∈ reg ∧ a.capabilities &&& mask ≠ 0) ∧
      (agent_find_by_capability mask reg).Sorted fun a b =>
        a.load_factor < b.load_factor ∨
          (a.load_factor = b.load_factor ∧ a.agent_id ≤ b.agent_id) := by
  refine ⟨List.perm_insertionSort _ _, fun a => ?_, ?_⟩
  · rw [agent_find_by_capability, (List.perm_insertionSort _ _).mem_iff,
      List.mem_filter, decide_eq_true_iff]
  · exact List.sorted_insertionSort agentRel _

theorem agentRel_load {a b : AgentNode} (h : agentRel a b) :
    a.load_factor ≤ b.load_factor := by
  unfold agentRel at h; omega

/-- C8: `select_agent` reports `NoAgentAvailable` (`none`) exactly when no
registered agent matches the capability mask — never a fallback agent — and
otherwise returns a matching agent whose load factor is least among all
matching agents. -/
theorem select_agent_spec (mask : Nat) (reg : List AgentNode) :
    (select_agent mask reg = none ↔ ∀ a ∈ reg, a.capabilities &&& mask = 0) ∧
      ∀ a, select_agent mask reg = some a →
        (a ∈ reg ∧ a.capabilities &&& mask ≠ 0) ∧
          ∀ b ∈ reg, b.capabilities &&& mask ≠ 0 →
            a.load_factor ≤ b.load_factor := by
  have hperm : (agent_find_by_capability mask reg).Perm
      (reg.filter fun a => decide (a.capabilities &&& mask ≠ 0)) :=
    List.perm_insertionSort _ _
  have hsort : (agent_find_by_capability mask reg).Sorted agentRel :=
    List.sorted_insertionSort _ _
  constructor
  · rw [select_agent, List.head?_eq_none_iff]
    constructor
    · intro h a ha
      by_contra hne
      have : a ∈ agent_find_by_capability mask reg :=
        hperm.mem_iff.mpr (List.mem_filter.mpr ⟨ha, decide_eq_true hne⟩)
      rw [h] at this
      exact absurd this (List.not_mem_nil a)
    · intro h
      have hfil : (reg.filter fun a => decide (a.capabilities &&& mask ≠ 0)) = [] := by
        rw [List.filter_eq_nil_iff]
        intro a ha
        simpa using h a ha
      rw [hfil] at hperm
      exact hperm.eq_nil
  · intro a ha
    rw [select_agent] at ha
    rcases hfind : agent_find_by_capability mask reg with - | ⟨x, t⟩
    · rw [hfind] at ha
      exact absurd ha (by simp)
    · rw [hfind] at ha
      have hax : x = a := by simpa using ha
      subst hax
      have hmem : x ∈ reg ∧ x.capabilities &&& mask ≠ 0 := by
        have hx : x ∈ agent_find_by_capability mask reg := by
          rw [hfind]; exact List.mem_cons_self x t
        have hx2 := hperm.mem_iff.mp hx
        rw [List.mem_filter, decide_eq_true_iff] at hx2
        exact hx2
      refine ⟨hmem, fun b hb hbcap => ?_⟩
      have hbmem : b ∈ agent_find_by_capability mask reg :=
        hperm.mem_iff.mpr (List.mem_filter.mpr ⟨hb, decide_eq_true hbcap⟩)
      rw [hfind] at hbmem
      rcases List.mem_cons.mp hbmem with hbx | hbt
      · rw [hbx]
      · rw [hfind] at hsort
        exact agentRel_load ((List.sorted_cons.mp hsort).1 b hbt)

/-- Concrete instance of agent selection, the example of §8: among
`(id 1, load 3, cap 1)` and `(id 2, load 1, cap 1)`, `select_agent 1` returns
agent 2, a capability match of least load. -/
theorem select_agent_spec_witness :
    ((AgentNode.mk 2 [] 0 1 1 0) ∈
        ([⟨1, [], 0, 1, 3, 0⟩, ⟨2, [], 0, 1, 1, 0⟩] : List AgentNode) ∧
      (AgentNode.mk 2 [] 0 1 1 0).capabilities &&& 1 ≠ 0) ∧
      ∀ b ∈ ([⟨1, [], 0, 1, 3, 0⟩, ⟨2, [], 0, 1, 1, 0⟩] : List AgentNode),
        b.capabilities &&& 1 ≠ 0 →
          (AgentNode.mk 2 [] 0 1 1 0).load_factor ≤ b.load_factor :=
  (select_agent_spec 1 [⟨1, [], 0, 1, 3, 0⟩, ⟨2, [], 0, 1, 1, 0⟩]).2
    (AgentNode.mk 2 [] 0 1 1 0) (by decide)

theorem stepObs_idem (mid : Nat) (o : Nat × Nat × List Int) (c : Candidate) :
    stepObs mid (stepObs mid o c) c = stepObs mid o c := by
  obtain ⟨v, ck, p⟩ := o
  by_cases hA : c.membrane_id = mid ∧ v < c.version <;>
    simp only [stepObs, hA, and_true, true_and, and_self, if_true, if_false] <;>
      split_ifs <;> rfl

theorem stepObs_comm (mid : Nat) (o : Nat × Nat × List Int) (c1 c2 : Candidate)
    (h : c1.membrane_id = c2.membrane_id → c1.version = c2.version →
      c1.payload = c2.payload) :
    stepObs mid (stepObs mid o c1) c2 = stepObs mid (stepObs mid o c2) c1 := by
  obtain ⟨v, ck, p⟩ := o
  by_cases hA : c1.membrane_id = mid ∧ v < c1.version <;>
    by_cases hB : c2.membrane_id = mid ∧ v < c2.version <;>
      simp only [stepObs, hA, hB, and_true, true_and, and_self, if_true, if_false] <;>
        split_ifs <;> try rfl
  all_goals try omega
  rename_i hlt1 hlt2
  have hv : c1.version = c2.version := by omega
  have hpay : c1.payload = c2.payload := h (hA.1.trans hB.1.symm) hv
  rw [hv, hpay]

theorem foldObs_absorb (mid : Nat) (c : Candidate) :
    ∀ (L : List Candidate) (o : Nat × Nat × List Int), c ∈ L →
      (∀ x ∈ L, Compat c x) →
      foldObs mid (stepObs mid o c) L = foldObs mid o L := by
  intro L
  induction L with
  | nil => intro o hmem _; exact absurd hmem (List.not_mem_nil c)
  | cons b M ih =>
    intro o hmem hcomp
    by_cases hcb : c = b
    · subst hcb
      show foldObs mid (stepObs mid (stepObs mid o c) c) M = foldObs mid (stepObs mid o c) M
      rw [stepObs_idem]
    · have hcM : c ∈ M := by
        rcases List.mem_cons.mp hmem with h1 | h1
        · exact absurd h1 hcb
        · exact h1
      show foldObs mid (stepObs mid (stepObs mid o c) b) M = foldObs mid (stepObs mid o b) M
      rw [stepObs_comm mid o c b (hcomp b (List.mem_cons_self b M))]
      exact ih (stepObs mid o b) hcM fun x hx => hcomp x (List.mem_cons_of_mem b hx)

theorem foldObs_dedup (mid : Nat) :
    ∀ (L : List Candidate) (o : Nat × Nat × List Int),
      (∀ c1 ∈ L, ∀ c2 ∈ L, Compat c1 c2) →
      foldObs mid o L = foldObs mid o L.dedup := by
  intro L
  induction L with
  | nil => intro o _; rfl
  | cons a M ih =>
    intro o hcomp
    by_cases haM : a ∈ M
    · rw [List.dedup_cons_of_mem haM]
      show foldObs mid (stepObs mid o a) M = foldObs mid o M.dedup
      rw [foldObs_absorb mid a M o haM
        fun x hx => hcomp a (List.mem_cons_self a M) x (List.mem_cons_of_mem a hx)]
      exact ih o fun c1 h1 c2 h2 =>
        hcomp c1 (List.mem_cons_of_mem a h1) c2 (List.mem_cons_of_mem a h2)
    · rw [List.dedup_cons_of_not_mem haM]
      show foldObs mid (stepObs mid o a) M = foldObs mid (stepObs mid o a) M.dedup
      exact ih (stepObs mid o a) fun c1 h1 c2 h2 =>
        hcomp c1 (List.mem_cons_of_mem a h1) c2 (List.mem_cons_of_mem a h2)

theorem foldObs_perm (mid : Nat) :
    ∀ {L1 L2 : List Candidate}, L1.Perm L2 →
      (∀ c1 ∈ L1, ∀ c2 ∈ L1, Compat c1 c2) →
      ∀ o, foldObs mid o L1 = foldObs mid o L2 := by
  intro L1 L2 hp
  induction hp with
  | nil => intro _ o; rfl
  | cons x hp ih =>
    intro hcomp o
    show foldObs mid (stepObs mid o x) _ = foldObs mid (stepObs mid o x) _
    exact ih (fun c1 h1 c2 h2 =>
      hcomp c1 (List.mem_cons_of_mem x h1) c2 (List.mem_cons_of_mem x h2)) _
  | swap x y l =>
    intro hcomp o
    show foldObs mid (stepObs mid (stepObs mid o y) x) l =
      foldObs mid (stepObs mid (stepObs mid o x) y) l
    rw [stepObs_comm mid o y x
      (hcomp y (List.mem_cons_self y _) x (List.mem_cons_of_mem y (List.mem_cons_self x l)))]
  | trans h1 h2 ih1 ih2 =>
    intro hcomp o
    rw [ih1 hcomp o]
    exact ih2 (fun c1 hc1 c2 hc2 =>
      hcomp c1 (h1.mem_iff.mpr hc1) c2 (h1.mem_iff.mpr hc2)) o

theorem foldObs_set_eq (mid : Nat) (L1 L2 : List Candidate) (o : Nat × Nat × List Int)
    (hmem : ∀ c, c ∈ L1 ↔ c ∈ L2)
    (hcomp : ∀ c1 ∈ L1, ∀ c2 ∈ L1, Compat c1 c2) :
    foldObs mid o L1 = foldObs mid o L2 := by
  have hcomp2 : ∀ c1 ∈ L2, ∀ c2 ∈ L2, Compat c1 c2 := fun c1 h1 c2 h2 =>
    hcomp c1 ((hmem c1).mpr h1) c2 ((hmem c2).mpr h2)
  rw [foldObs_dedup mid L1 o hcomp, foldObs_dedup mid L2 o hcomp2]
  apply foldObs_perm mid
  · exact List.perm_of_nodup_nodup_toFinset_eq (List.nodup_dedup L1) (List.nodup_dedup L2)
      (by
        ext a
        simp only [List.mem_toFinset, List.mem_dedup]
        exact hmem a)
  · exact fun c1 h1 c2 h2 =>
      hcomp c1 (List.mem_dedup.mp h1) c2 (List.mem_dedup.mp h2)

theorem apply_remote_obs (s : MembraneState) (c : Candidate) (h : s.last_local_mut = 0) :
    ((apply_remote s c).2).obs = stepObs s.membrane_id s.obs c ∧
      ((apply_remote s c).2).last_local_mut = 0 ∧
      ((apply_remote s c).2).membrane_id = s.membrane_id := by
  unfold apply_remote
  unfold MembraneState.obs stepObs
  split_ifs <;> simp_all
  all_goals split_ifs <;> first | rfl | omega

theorem applyList_obs (s : MembraneState) (L : List Candidate) (h : s.last_local_mut = 0) :
    (applyList s L).obs = foldObs s.membrane_id s.obs L := by
  induction L generalizing s with
  | nil => rfl
  | cons c t ih =>
    obtain ⟨h1, h2, h3⟩ := apply_remote_obs s c h
    show (applyList (apply_remote s c).2 t).obs =
      foldObs s.membrane_id (stepObs s.membrane_id s.obs c) t
    rw [ih _ h2, h3, h1]

theorem apply_remote_reapply (t : MembraneState) (c : Candidate)
    (h : (apply_remote t c).1 = .accepted) :
    apply_remote (apply_remote t c).2 c = (.accepted, (apply_remote t c).2) := by
  unfold apply_remote at h ⊢
  split_ifs at h <;> first
    | exact ApplyResult.noConfusion h
    | (rename_i h1 h2 h3; simp [h1, h2, h3])

/-- C4: a remote candidate for the same membrane whose version is at most the
local version and whose checksum differs from the local checksum is
`Rejected(Stale)`: the candidate is discarded and the local
`(version, checksum, payload)` is unchanged. -/
theorem apply_remote_stale (s : MembraneState) (c : Candidate)
    (hid : c.membrane_id = s.membrane_id) (hv : c.version ≤ s.version)
    (hchk : chk c.payload ≠ s.checksum) :
    apply_remote s c = (.rejected .stale, s) := by
  unfold apply_remote
  rw [if_neg (not_ne_iff.mpr hid), if_pos hv, if_pos hchk]

/-- Concrete instance of stale rejection, the example of §8: a local membrane
at version 5 receiving a version-5 candidate with a differing checksum is
rejected as stale, not overwritten. -/
theorem apply_remote_stale_witness :
    chk (⟨1, 5, 0, [4], 2⟩ : Candidate).payload ≠
        (⟨1, 1, 5, [3], chk [3], [3], 0⟩ : MembraneState).checksum ∧
      apply_remote ⟨1, 1, 5, [3], chk [3], [3], 0⟩ ⟨1, 5, 0, [4], 2⟩ =
        (.rejected .stale, ⟨1, 1, 5, [3], chk [3], [3], 0⟩) :=
  ⟨by decide, apply_remote_stale _ _ rfl (by decide) (by decide)⟩

theorem stepOp_checksum (s : MembraneState) (o : MembraneOp)
    (h : s.checksum = chk s.payload) :
    (stepOp s o).checksum = chk (stepOp s o).payload := by
  cases o with
  | mutateOp f => simp [stepOp, mutate_local]
  | applyOp c =>
    simp only [stepOp]
    unfold apply_remote
    split_ifs <;> simp [h]

theorem stepOp_version (s : MembraneState) (o : MembraneOp) :
    s.version ≤ (stepOp s o).version := by
  cases o with
  | mutateOp f => simp [stepOp, mutate_local]
  | applyOp c =>
    simp only [stepOp]
    unfold apply_remote
    split_ifs <;> simp <;> omega

theorem runOps_checksum (ops : List MembraneOp) :
    ∀ s : MembraneState, s.checksum = chk s.payload →
      (runOps s ops).checksum = chk (runOps s ops).payload := by
  induction ops with
  | nil => exact fun s h => h
  | cons o os ih => exact fun s h => ih (stepOp s o) (stepOp_checksum s o h)

theorem runOps_version (ops : List MembraneOp) :
    ∀ s : MembraneState, s.version ≤ (runOps s ops).version := by
  induction ops with
  | nil => exact fun s => Nat.le_refl _
  | cons o os ih => exact fun s => (stepOp_version s o).trans (ih (stepOp s o))

/-- C5: for every membrane store state with a consistent checksum and every
sequence of store operations (local mutations and remote applications), the
stored checksum always matches the current payload, the version counter never
decreases, and a local mutation strictly increments it by one. -/
theorem membrane_invariants (s : MembraneState) (ops : List MembraneOp)
    (f : List Int → List Int) (h : s.checksum = chk s.payload) :
    (runOps s ops).checksum = chk (runOps s ops).payload ∧
      s.version ≤ (runOps s ops).version ∧
      (mutate_local s f).version = s.version + 1 :=
  ⟨runOps_checksum ops s h, runOps_version ops s, rfl⟩

/-- Concrete instance of the membrane invariants: after a local mutation and
a remote application, the checksum still matches the payload and the version
did not decrease. -/
theorem membrane_invariants_witness :
    ((⟨1, 1, 0, [2], chk [2], [2], 0⟩ : MembraneState).checksum =
        chk (⟨1, 1, 0, [2], chk [2], [2], 0⟩ : MembraneState).payload) ∧
      (runOps ⟨1, 1, 0, [2], chk [2], [2], 0⟩
          [.mutateOp (fun p => 7 :: p), .applyOp ⟨1, 9, 0, [4], 2⟩]).checksum =
        chk (runOps ⟨1, 1, 0, [2], chk [2], [2], 0⟩
          [.mutateOp (fun p => 7 :: p), .applyOp ⟨1, 9, 0, [4], 2⟩]).payload ∧
      (⟨1, 1, 0, [2], chk [2], [2], 0⟩ : MembraneState).version ≤
        (runOps ⟨1, 1, 0, [2], chk [2], [2], 0⟩
          [.mutateOp (fun p => 7 :: p), .applyOp ⟨1, 9, 0, [4], 2⟩]).version ∧
      (mutate_local ⟨1, 1, 0, [2], chk [2], [2], 0⟩ (fun p => 7 :: p)).version =
        (⟨1, 1, 0, [2], chk [2], [2], 0⟩ : MembraneState).version + 1 :=
  ⟨rfl, membrane_invariants _ _ _ rfl⟩

/-- C1 (amended): for two replica stores — identical observable state, same
membrane id and no unsynchronized local mutations — and two candidate lists
with the same membership in which equal versions for the same membrane imply
equal payloads, `apply_remote` folds, in any order and with any duplication,
to identical final `(version, checksum, payload)`; and re-applying an
accepted candidate changes nothing. -/
theorem apply_remote_convergence (s1 s2 : MembraneState) (L1 L2 : List Candidate)
    (hobs : s1.obs = s2.obs) (hmid : s1.membrane_id = s2.membrane_id)
    (hl1 : s1.last_local_mut = 0) (hl2 : s2.last_local_mut = 0)
    (hmem1 : ∀ c, c ∈ L1 → c ∈ L2) (hmem2 : ∀ c, c ∈ L2 → c ∈ L1)
    (hcomp : ∀ c1 ∈ L1, ∀ c2 ∈ L1, c1.membrane_id = c2.membrane_id →
      c1.version = c2.version → c1.payload = c2.payload) :
    (applyList s1 L1).obs = (applyList s2 L2).obs ∧
      ∀ (t : MembraneState) (c : Candidate), (apply_remote t c).1 = .accepted →
        apply_remote (apply_remote t c).2 c = (.accepted, (apply_remote t c).2) := by
  refine ⟨?_, apply_remote_reapply⟩
  rw [applyList_obs s1 L1 hl1, applyList_obs s2 L2 hl2, hobs, hmid]
  exact foldObs_set_eq s2.membrane_id L1 L2 s2.obs (fun c => ⟨hmem1 c, hmem2 c⟩) hcomp

/-- Concrete instance of convergence: the same replica store, one candidate
list and a reordered, duplicated variant of it fold to the same observable
state. -/
theorem apply_remote_convergence_witness :
    (applyList ⟨1, 1, 0, [0], chk [0], [0], 0⟩
        [⟨1, 1, 0, [4], 2⟩, ⟨1, 2, 0, [6], 3⟩]).obs =
      (applyList ⟨1, 1, 0, [0], chk [0], [0], 0⟩
        [⟨1, 2, 0, [6], 3⟩, ⟨1, 1, 0, [4], 2⟩, ⟨1, 1, 0, [4], 2⟩]).obs ∧
      ∀ (t : MembraneState) (c : Candidate), (apply_remote t c).1 = .accepted →
        apply_remote (apply_remote t c).2 c = (.accepted, (apply_remote t c).2) :=
  apply_remote_convergence _ _ _ _ rfl rfl rfl rfl (by decide) (by decide) (by decide)

/-- C1 as stated is false: (i) two candidates sharing a version with
different payloads applied to the same store in the two orders yield
different final states; (ii) the same candidate set applied to two stores
with different initial states yields different final states; (iii) with an
unsynchronized local mutation present, even distinct-version candidates
diverge under reordering because the merge path is order-sensitive. -/
theorem apply_remote_convergence_counterexample :
    (applyList ⟨1, 1, 0, [0], chk [0], [0], 0⟩
          [⟨1, 1, 0, [5], 2⟩, ⟨1, 1, 0, [9], 3⟩]).obs ≠
        (applyList ⟨1, 1, 0, [0], chk [0], [0], 0⟩
          [⟨1, 1, 0, [9], 3⟩, ⟨1, 1, 0, [5], 2⟩]).obs ∧
      (applyList ⟨1, 1, 0, [0], chk [0], [0], 0⟩ [⟨1, 1, 0, [5], 2⟩]).obs ≠
        (applyList ⟨1, 1, 3, [7], chk [7], [7], 0⟩ [⟨1, 1, 0, [5], 2⟩]).obs ∧
      (applyList ⟨1, 1, 2, [10], chk [10], [0], 2⟩
          [⟨1, 5, 0, [5], 2⟩, ⟨1, 9, 0, [7], 3⟩]).obs ≠
        (applyList ⟨1, 1, 2, [10], chk [10], [0], 2⟩
          [⟨1, 9, 0, [7], 3⟩, ⟨1, 5, 0, [5], 2⟩]).obs := by
  decide

end Cognitive
